import Mathlib

/-!
Shallow embedding of the aggregation engine of `app.py` (doctor_statistics):
the functions `preprocess_data` and `calculate_doctor_performance`.

Modelling conventions:
* A pandas DataFrame is a `Table`: a list of present column names plus a list
  of records.  Presence of an optional column (`团队名称`, `建档日期`, `签约日期`,
  `就诊日期`) is tracked in `cols`; the record fields are only consulted by the
  code paths that the corresponding column guard enables, exactly as in the
  source.
* Timestamps (`pd.Timestamp`) are integers (seconds); `dt.date` is truncation
  by 86400 (`dateOf`); `pd.Timestamp(date)` is midnight (`dayStart`).
* `pd.to_datetime(x, errors="coerce")` is `parseDate : RawDate → Option Int`,
  `none` playing NaT.  Comparisons against NaT are `false`, as in pandas.
* A groupby on `诊疗医生` is: distinct providers (in order of appearance) with
  per-provider aggregation over the filtered rows.
* `Series.rank(ascending=False, method="dense").astype(int)` is `denseRank`.
* `pd.merge(..., on="诊疗医生", how="left")` is `leftJoinP`; the subsequent
  `.fillna(0).astype(int)` is `Option.getD 0`.
* `st.error` followed by `return pd.DataFrame(), None, None, None` (the schema
  abort), and an uncaught pandas `KeyError`, are both modelled as the `.error`
  branch of an `Except`.
-/

namespace DoctorStats

/-- Raw cell of a date column before `pd.to_datetime(·, errors="coerce")`:
either empty, an unparseable string, or a parseable timestamp. -/
inductive RawDate where
  | missing : RawDate
  | invalid : String → RawDate
  | valid : Int → RawDate
deriving DecidableEq

/-- Model of `pd.to_datetime(x, errors="coerce")` on one cell: unparseable or
missing values become NaT (`none`). -/
def parseDate : RawDate → Option Int
  | RawDate.missing => none
  | RawDate.invalid _ => none
  | RawDate.valid t => some t

/-- Raw cell of one of the four origin-flag columns (mixed string/int types,
as handled by line 38 of `app.py`). -/
inductive CellVal where
  | str : String → CellVal
  | int : Int → CellVal
deriving DecidableEq

/-- Line 38 of `app.py`: `1 if x == '是' or x == 1 else 0`. -/
def normFlag (x : CellVal) : Nat :=
  if x = CellVal.str "是" ∨ x = CellVal.int 1 then 1 else 0

/-- One raw input row, before `preprocess_data`. -/
structure RawRecord where
  provider : String
  patientId : String
  visitDate : RawDate
  regDate : RawDate
  signDate : RawDate
  regLocalRaw : CellVal
  regExternalRaw : CellVal
  signLocalRaw : CellVal
  signExternalRaw : CellVal
  teamName : Option String
deriving DecidableEq

/-- One row after `preprocess_data`: the visit date parsed (rows where it did
not parse are gone), the other two dates parsed-or-NaT, and the four origin
flags normalised to 0/1 integers. -/
structure PRecord where
  provider : String
  patientId : String
  visitDate : Int
  regDate : Option Int
  signDate : Option Int
  regLocal : Nat
  regExternal : Nat
  signLocal : Nat
  signExternal : Nat
  teamName : Option String
deriving DecidableEq

/-- Conversion of one raw row that survived the `dropna` on `就诊日期`
(lines 23-38 of `app.py`): `d` is the parsed visit date. -/
def convRecord (r : RawRecord) (d : Int) : PRecord :=
  { provider := r.provider
    patientId := r.patientId
    visitDate := d
    regDate := parseDate r.regDate
    signDate := parseDate r.signDate
    regLocal := normFlag r.regLocalRaw
    regExternal := normFlag r.regExternalRaw
    signLocal := normFlag r.signLocalRaw
    signExternal := normFlag r.signExternalRaw
    teamName := r.teamName }

/-- Model of `preprocess_data` on the main path (the date columns are present):
coerce `就诊日期` and drop rows where it is NaT, coerce `签约日期`/`建档日期`
keeping NaT, normalise the four origin flags. -/
def preprocess_data (rs : List RawRecord) : List PRecord :=
  rs.filterMap fun r => (parseDate r.visitDate).map (convRecord r)

/-- A DataFrame handed to `calculate_doctor_performance`: the set of column
names present in the frame, and the rows. -/
structure Table where
  cols : List String
  rows : List PRecord
deriving DecidableEq

/-- The fixed health-hut team label of `app.py`. -/
def healthHutLabel : String := "健康小屋-yey"

/-- Seconds per day; `pd.Timestamp` values are modelled in seconds. -/
def secondsPerDay : Int := 86400

/-- Midnight of a calendar day: `pd.Timestamp(start_date)`. -/
def dayStart (d : Int) : Int := d * secondsPerDay

/-- Calendar day of a timestamp: `.dt.date`. -/
def dateOf (t : Int) : Int := t / secondsPerDay

/-- Lines 60-63 of `app.py`: the `健康小屋-yey` indicator column.  When the
`团队名称` column is absent the indicator is the constant 0. -/
def hutFlag (hasTeam : Bool) (r : PRecord) : Nat :=
  if hasTeam then (if r.teamName = some healthHutLabel then 1 else 0) else 0

/-- Lines 66-69 of `app.py`: `非健康小屋的本机构签约` — the local-signing flag,
zeroed on rows flagged as health-hut. -/
def effSign (hasTeam : Bool) (r : PRecord) : Nat :=
  if hutFlag hasTeam r = 0 then r.signLocal else 0

/-- Line 80 of `app.py`: `未建档 = (是否本机构建档 == 0)`. -/
def unregFlag (r : PRecord) : Nat :=
  if r.regLocal = 0 then 1 else 0

/-- Line 83 of `app.py`: `未签约 = (非健康小屋的本机构签约 == 0)`. -/
def unsignFlag (hasTeam : Bool) (r : PRecord) : Nat :=
  if effSign hasTeam r = 0 then 1 else 0

/-- The rows of one provider's group. -/
def groupRows (rows : List PRecord) (p : String) : List PRecord :=
  rows.filter fun r => decide (r.provider = p)

/-- The distinct providers of the record set (groupby keys). -/
def providersOf (rows : List PRecord) : List String :=
  (rows.map fun r => r.provider).dedup

/-- One provider row of the `grouped` frame right after the aggregation and the
two base rates (lines 86-106 of `app.py`). -/
structure Base where
  provider : String
  visits : Nat
  regLocalCount : Nat
  regExtCount : Nat
  remainUnreg : Nat
  signLocalCount : Nat
  signExtCount : Nat
  hutCount : Nat
  remainUnsign : Nat
  regRate : ℚ
  signRate : ℚ
deriving DecidableEq

/-- Lines 86-106 of `app.py` for one provider: the eight aggregates of the
`groupby("诊疗医生").agg(...)` call plus `建档率` and `签约率`. -/
def baseFor (hasTeam : Bool) (rows : List PRecord) (p : String) : Base :=
  let g := groupRows rows p
  { provider := p
    visits := g.length
    regLocalCount := (g.map fun r => r.regLocal).sum
    regExtCount := (g.map fun r => r.regExternal).sum
    remainUnreg := (g.map unregFlag).sum
    signLocalCount := (g.map (effSign hasTeam)).sum
    signExtCount := (g.map fun r => r.signExternal).sum
    hutCount := (g.map (hutFlag hasTeam)).sum
    remainUnsign := (g.map (unsignFlag hasTeam)).sum
    regRate := ((((g.map fun r => r.regLocal).sum : ℕ)) : ℚ) / ((g.length : ℕ) : ℚ)
    signRate := ((((g.map (effSign hasTeam)).sum : ℕ)) : ℚ) / ((g.length : ℕ) : ℚ) }

/-- The whole `grouped` frame of lines 86-106: one `Base` row per distinct
provider. -/
def baseTable (hasTeam : Bool) (rows : List PRecord) : List Base :=
  (providersOf rows).map (baseFor hasTeam rows)

/-- Model of `Series.rank(ascending=False, method="dense").astype(int)` for a
single value `v` of the column `vals`: one plus the number of distinct column
values strictly greater than `v`. -/
def denseRank {α : Type} [DecidableEq α] [LinearOrder α] (vals : List α) (v : α) : Nat :=
  (vals.dedup.filter fun w => decide (v < w)).length + 1

/-- One provider row of the final statistics table.  The `Option` fields model
the columns that exist only when the corresponding date column was present in
the input. -/
structure StatRow where
  provider : String
  visits : Nat
  regLocalCount : Nat
  regExtCount : Nat
  remainUnreg : Nat
  signLocalCount : Nat
  signExtCount : Nat
  hutCount : Nat
  remainUnsign : Nat
  regRate : ℚ
  signRate : ℚ
  regRateRank : Nat
  signRateRank : Nat
  newFileCount : Option Nat := none
  newFileRate : Option ℚ := none
  newFileRateRank : Option Nat := none
  newSignCount : Option Nat := none
  newSignRate : Option ℚ := none
  newSignRateRank : Option Nat := none
  newSignCountRank : Option Nat := none
deriving DecidableEq

/-- Lines 109-110 of `app.py`: attach `建档率排名` and `签约率排名` to the base
table. -/
def withRanks (bs : List Base) : List StatRow :=
  let regRates := bs.map fun b => b.regRate
  let signRates := bs.map fun b => b.signRate
  bs.map fun b =>
    { provider := b.provider
      visits := b.visits
      regLocalCount := b.regLocalCount
      regExtCount := b.regExtCount
      remainUnreg := b.remainUnreg
      signLocalCount := b.signLocalCount
      signExtCount := b.signExtCount
      hutCount := b.hutCount
      remainUnsign := b.remainUnsign
      regRate := b.regRate
      signRate := b.signRate
      regRateRank := denseRank regRates b.regRate
      signRateRank := denseRank signRates b.signRate }

/-- Lines 120-123 of `app.py`: the `new_file_mask` — registration date on the
same calendar day as the visit, locally registered, and the registration date
inside the caller's window.  All comparisons against NaT are false. -/
def newFileMask (sd ed : Int) (r : PRecord) : Bool :=
  match r.regDate with
  | none => false
  | some rd =>
      decide (dateOf rd = dateOf r.visitDate) && decide (r.regLocal = 1) &&
      decide (dayStart sd ≤ rd) && decide (rd ≤ dayStart ed)

/-- Lines 154-156 of `app.py`: the base `new_sign_mask` — signing date inside
the window and locally signed. -/
def baseSignMask (sd ed : Int) (r : PRecord) : Bool :=
  match r.signDate with
  | none => false
  | some t =>
      decide (dayStart sd ≤ t) && decide (t ≤ dayStart ed) && decide (r.signLocal = 1)

/-- Line 159 of `app.py`: `health_hut_mask` — additionally `团队名称 ==
'健康小屋-yey'`. -/
def hutSignMask (sd ed : Int) (r : PRecord) : Bool :=
  baseSignMask sd ed r && decide (r.teamName = some healthHutLabel)

/-- Line 163 of `app.py`: the final `new_sign_mask` — additionally `团队名称 !=
'健康小屋-yey'` (a NaN team name compares as not-equal, hence qualifies). -/
def newSignMask (sd ed : Int) (r : PRecord) : Bool :=
  baseSignMask sd ed r && !(decide (r.teamName = some healthHutLabel))

/-- A subset's per-provider aggregation (lines 128-130 / 167-169 of `app.py`):
for each distinct provider of the subset, the sum of `f` over its rows. -/
def groupCount (rows : List PRecord) (f : PRecord → Nat) : List (String × Nat) :=
  (providersOf rows).map fun p => (p, ((groupRows rows p).map f).sum)

/-- The count a left join associates with a provider key: the head of the
matching entries, if any. -/
def countLookup (sub : List (String × Nat)) (k : String) : Option Nat :=
  ((sub.filter fun q => decide (q.1 = k)).head?).map fun q => q.2

/-- Model of `pd.merge(main, sub, on="诊疗医生", how="left")`: every main row is
kept, paired with each matching count (or with `none` when there is no match).
A right side with duplicate keys would duplicate main rows, exactly as the
pandas merge does. -/
def leftJoinP : List StatRow → List (String × Nat) → List (StatRow × Option Nat)
  | [], _ => []
  | s :: rest, sub =>
    (match sub.filter (fun q => decide (q.1 = s.provider)) with
     | [] => [(s, none)]
     | ms => ms.map fun q => (s, some q.2)) ++ leftJoinP rest sub

/-- Lines 140-143 / 179-182 of `app.py`: the "new" rate against the remaining
pool, guarded to 0 when the remaining pool is empty. -/
def newRate (remaining newCount : Nat) : ℚ :=
  if 0 < remaining then (newCount : ℚ) / ((remaining : ℚ) + (newCount : ℚ)) else 0

/-- Lines 114-146 of `app.py`: group the new-registration subset, left-merge its
count into the main table, `fillna(0).astype(int)`, compute `新建档率` and its
dense rank. -/
def applyNewFile (sd ed : Int) (rows : List PRecord) (main : List StatRow) : List StatRow :=
  let sub := groupCount (rows.filter (newFileMask sd ed)) fun r => r.regLocal
  let filled := (leftJoinP main sub).map fun p =>
    { p.1 with newFileCount := some (p.2.getD 0) }
  let rated := filled.map fun s =>
    { s with newFileRate := some (newRate s.remainUnreg (s.newFileCount.getD 0)) }
  let rates := rated.map fun s => s.newFileRate.getD 0
  rated.map fun s =>
    { s with newFileRateRank := some (denseRank rates (s.newFileRate.getD 0)) }

/-- Lines 148-188 of `app.py`: group the new-signing subset (health hut already
excluded by the mask), left-merge, `fillna(0).astype(int)`, compute `新签约率`,
its dense rank, and the dense rank of `新签约人数`. -/
def applyNewSign (sd ed : Int) (rows : List PRecord) (main : List StatRow) : List StatRow :=
  let sub := groupCount (rows.filter (newSignMask sd ed)) fun r => r.signLocal
  let filled := (leftJoinP main sub).map fun p =>
    { p.1 with newSignCount := some (p.2.getD 0) }
  let rated := filled.map fun s =>
    { s with newSignRate := some (newRate s.remainUnsign (s.newSignCount.getD 0)) }
  let rates := rated.map fun s => s.newSignRate.getD 0
  let ranked := rated.map fun s =>
    { s with newSignRateRank := some (denseRank rates (s.newSignRate.getD 0)) }
  let counts := ranked.map fun s => s.newSignCount.getD 0
  ranked.map fun s =>
    { s with newSignCountRank := some (denseRank counts (s.newSignCount.getD 0)) }

/-- Lines 47-49 of `app.py`: restrict to the inclusive visit-date window (only
when the `就诊日期` column exists). -/
def windowFilter (cols : List String) (rows : List PRecord) (sd ed : Int) : List PRecord :=
  if "就诊日期" ∈ cols then
    rows.filter fun r => decide (dayStart sd ≤ r.visitDate) && decide (r.visitDate ≤ dayStart ed)
  else rows

/-- Line 52 of `app.py`: the six required columns. -/
def requiredColumns : List String :=
  ["诊疗医生", "身份证号", "是否本机构建档", "是否外机构建档", "是否本机构签约", "是否外机构签约"]

/-- How a call of `calculate_doctor_performance` can fail: the schema abort of
lines 55-57 (carrying every missing required column), or an uncaught pandas
`KeyError` on a column access. -/
inductive CalcError where
  | missingColumns : List String → CalcError
  | keyError : String → CalcError
deriving DecidableEq

/-- The four values returned by `calculate_doctor_performance`: the statistics
table and the three optional subset tables. -/
structure Output where
  grouped : List StatRow
  newFileRows : Option (List PRecord)
  newSignRows : Option (List PRecord)
  healthHutRows : Option (List PRecord)
deriving DecidableEq

instance : Inhabited Output := ⟨⟨[], none, none, none⟩⟩

/-- Model of `calculate_doctor_performance(df, start_date, end_date)`
(lines 45-216 of `app.py`).  Stages in source order: window filter, required
column check, base aggregation with ranks, the new-registration block (when
`建档日期` and `就诊日期` exist), and the new-signing block (when `签约日期`
exists) — whose line 159 reads the `团队名称` column unguarded and therefore
raises a `KeyError` when that column is absent. -/
def calculate_doctor_performance (t : Table) (sd ed : Int) : Except CalcError Output :=
  let rows := windowFilter t.cols t.rows sd ed
  let missing := requiredColumns.filter fun c => decide (c ∉ t.cols)
  if missing = [] then
    let hasTeam := decide ("团队名称" ∈ t.cols)
    let st0 := withRanks (baseTable hasTeam rows)
    let st1 := if "建档日期" ∈ t.cols ∧ "就诊日期" ∈ t.cols then applyNewFile sd ed rows st0 else st0
    if "签约日期" ∈ t.cols ∧ "团队名称" ∉ t.cols then
      Except.error (CalcError.keyError "团队名称")
    else
      let st2 := if "签约日期" ∈ t.cols then applyNewSign sd ed rows st1 else st1
      Except.ok
        { grouped := st2
          newFileRows :=
            if "建档日期" ∈ t.cols ∧ "就诊日期" ∈ t.cols then
              some (rows.filter (newFileMask sd ed))
            else none
          newSignRows :=
            if "签约日期" ∈ t.cols then some (rows.filter (newSignMask sd ed)) else none
          healthHutRows :=
            if "签约日期" ∈ t.cols then some (rows.filter (hutSignMask sd ed)) else none }
  else Except.error (CalcError.missingColumns missing)

/-- The merged-and-filled new-registration count of one provider: the left
join's match for the provider key, `fillna(0)`. -/
def nfCount (sd ed : Int) (rows : List PRecord) (p : String) : Nat :=
  (countLookup (groupCount (rows.filter (newFileMask sd ed)) fun r => r.regLocal) p).getD 0

/-- The merged-and-filled new-signing count of one provider: the left join's
match for the provider key, `fillna(0)`. -/
def nsCount (sd ed : Int) (rows : List PRecord) (p : String) : Nat :=
  (countLookup (groupCount (rows.filter (newSignMask sd ed)) fun r => r.signLocal) p).getD 0

/-- The statistics table produced on the success path of
`calculate_doctor_performance`, as a function of the input columns and rows. -/
def groupedPipeline (cols : List String) (rows0 : List PRecord) (sd ed : Int) : List StatRow :=
  let rows := windowFilter cols rows0 sd ed
  let st0 := withRanks (baseTable (decide ("团队名称" ∈ cols)) rows)
  let st1 := if "建档日期" ∈ cols ∧ "就诊日期" ∈ cols then applyNewFile sd ed rows st0 else st0
  if "签约日期" ∈ cols then applyNewSign sd ed rows st1 else st1

/-- What "dense ranking, descending, 1 = best" means for a column of (value,
rank) pairs: the set of ranks is exactly 1..#distinct-values, equal values get
equal ranks, and a strictly larger value gets a strictly smaller rank. -/
def denseRankedPairs {α : Type} [DecidableEq α] [LinearOrder α] (pairs : List (α × Nat)) : Prop :=
  ((pairs.map fun p => p.2).toFinset = Finset.Icc 1 (pairs.map fun p => p.1).toFinset.card)
  ∧ (∀ p ∈ pairs, ∀ q ∈ pairs, p.1 = q.1 → p.2 = q.2)
  ∧ (∀ p ∈ pairs, ∀ q ∈ pairs, q.1 < p.1 → p.2 < q.2)

/-- Column list of a fully-populated input frame. -/
def sampleCols : List String :=
  ["诊疗医生", "身份证号", "是否本机构建档", "是否外机构建档", "是否本机构签约", "是否外机构签约",
   "就诊日期", "建档日期", "签约日期", "团队名称"]

/-- Concrete test row: a health-hut visit of provider A, locally registered and
locally signed on the visit day. -/
def sampleRow1 : PRecord :=
  { provider := "A", patientId := "p1", visitDate := 0, regDate := some 0, signDate := some 0,
    regLocal := 1, regExternal := 0, signLocal := 1, signExternal := 0,
    teamName := some healthHutLabel }

/-- Concrete test row: an unregistered, unsigned visit of provider A with no
team name. -/
def sampleRow2 : PRecord :=
  { provider := "A", patientId := "p2", visitDate := 100, regDate := none, signDate := none,
    regLocal := 0, regExternal := 1, signLocal := 0, signExternal := 0, teamName := none }

/-- Concrete test row: a visit of provider B on day 1, locally signed the same
day, not registered locally. -/
def sampleRow3 : PRecord :=
  { provider := "B", patientId := "p3", visitDate := 86400, regDate := some 86400,
    signDate := some 86400, regLocal := 0, regExternal := 0, signLocal := 1, signExternal := 0,
    teamName := some "T1" }

/-- A fully-populated concrete input table. -/
def sampleTable : Table := { cols := sampleCols, rows := [sampleRow1, sampleRow2, sampleRow3] }

/-- The output of the engine on `sampleTable` over the window day 0 .. day 1. -/
def sampleOut : Output := ((calculate_doctor_performance sampleTable 0 1).toOption).getD default

/-- A concrete table whose `团队名称` column is absent (and which carries no
date columns beyond `就诊日期`). -/
def noTeamTable : Table :=
  { cols := ["诊疗医生", "身份证号", "是否本机构建档", "是否外机构建档", "是否本机构签约",
             "是否外机构签约", "就诊日期"]
    rows := [sampleRow1, sampleRow2, sampleRow3] }

/-- The output of the engine on `noTeamTable`. -/
def noTeamOut : Output := ((calculate_doctor_performance noTeamTable 0 1).toOption).getD default

/-- A concrete table that has all six required columns and `签约日期`, but no
`团队名称` column: the input on which line 159 of `app.py` raises `KeyError`. -/
def keyErrTable : Table :=
  { cols := ["诊疗医生", "身份证号", "是否本机构建档", "是否外机构建档", "是否本机构签约",
             "是否外机构签约", "就诊日期", "签约日期"]
    rows := [sampleRow3] }

/-- A concrete table missing five of the six required columns. -/
def badTable : Table := { cols := ["诊疗医生", "团队名称"], rows := [sampleRow1] }

/-- Concrete raw rows for the normalizer: one parseable visit date with an
unparseable registration date, one missing visit date, one unparseable visit
date. -/
def sampleRaw : List RawRecord :=
  [ { provider := "A", patientId := "p1", visitDate := RawDate.valid 50,
      regDate := RawDate.invalid "2024-13-40", signDate := RawDate.missing,
      regLocalRaw := CellVal.str "是", regExternalRaw := CellVal.str "否",
      signLocalRaw := CellVal.int 1, signExternalRaw := CellVal.int 0,
      teamName := none },
    { provider := "B", patientId := "p2", visitDate := RawDate.missing,
      regDate := RawDate.valid 60, signDate := RawDate.valid 60,
      regLocalRaw := CellVal.int 1, regExternalRaw := CellVal.int 0,
      signLocalRaw := CellVal.int 0, signExternalRaw := CellVal.int 0,
      teamName := none },
    { provider := "C", patientId := "p3", visitDate := RawDate.invalid "garbage",
      regDate := RawDate.missing, signDate := RawDate.missing,
      regLocalRaw := CellVal.int 0, regExternalRaw := CellVal.int 0,
      signLocalRaw := CellVal.int 0, signExternalRaw := CellVal.int 0,
      teamName := some "T2" } ]

/-! ## Dense-ranking lemmas -/

lemma denseRank_eq {α : Type} [DecidableEq α] [LinearOrder α] (vals : List α) (v : α) :
    denseRank vals v = (vals.toFinset.filter (fun w => v < w)).card + 1 := by
  unfold denseRank
  congr 1

lemma filter_lt_ssubset {α : Type} [LinearOrder α] [DecidableEq α] (s : Finset α) (v w : α)
    (hv : v ∈ s) (hvw : w < v) :
    (s.filter fun x => v < x) ⊂ s.filter fun x => w < x := by
  rw [Finset.ssubset_iff_of_subset]
  · exact ⟨v, Finset.mem_filter.mpr ⟨hv, hvw⟩,
      fun hmem => lt_irrefl v (Finset.mem_filter.mp hmem).2⟩
  · intro x hx
    rcases Finset.mem_filter.mp hx with ⟨hxs, hlt⟩
    exact Finset.mem_filter.mpr ⟨hxs, lt_trans hvw hlt⟩

lemma denseRank_lt_of_lt {α : Type} [DecidableEq α] [LinearOrder α] (vals : List α) (v w : α)
    (hv : v ∈ vals) (hwv : w < v) :
    denseRank vals v < denseRank vals w := by
  rw [denseRank_eq, denseRank_eq]
  exact Nat.succ_lt_succ
    (Finset.card_lt_card (filter_lt_ssubset vals.toFinset v w (List.mem_toFinset.mpr hv) hwv))

lemma denseRank_le_card {α : Type} [DecidableEq α] [LinearOrder α] (vals : List α) (v : α)
    (hv : v ∈ vals) :
    denseRank vals v ≤ vals.toFinset.card := by
  rw [denseRank_eq]
  have hv2 : v ∈ vals.toFinset := List.mem_toFinset.mpr hv
  have hsub : (vals.toFinset.filter fun w => v < w) ⊆ vals.toFinset.erase v := by
    intro x hx
    rcases Finset.mem_filter.mp hx with ⟨hxs, hlt⟩
    exact Finset.mem_erase.mpr ⟨ne_of_gt hlt, hxs⟩
  have h1 := Finset.card_le_card hsub
  have h2 := Finset.card_erase_of_mem hv2
  have h3 : 0 < vals.toFinset.card := Finset.card_pos.mpr ⟨v, hv2⟩
  omega

lemma denseRank_image {α : Type} [DecidableEq α] [LinearOrder α] (vals : List α) :
    vals.toFinset.image (denseRank vals) = Finset.Icc 1 vals.toFinset.card := by
  have hinj : Set.InjOn (denseRank vals) vals.toFinset := by
    intro v hv w hw hfvw
    by_contra hne
    rcases lt_or_gt_of_ne hne with h | h
    · exact absurd hfvw (ne_of_gt (denseRank_lt_of_lt vals w v (List.mem_toFinset.mp hw) h))
    · exact absurd hfvw (ne_of_lt (denseRank_lt_of_lt vals v w (List.mem_toFinset.mp hv) h))
  have hsub : vals.toFinset.image (denseRank vals) ⊆ Finset.Icc 1 vals.toFinset.card := by
    intro n hn
    rcases Finset.mem_image.mp hn with ⟨v, hv, rfl⟩
    refine Finset.mem_Icc.mpr ⟨?_, denseRank_le_card vals v (List.mem_toFinset.mp hv)⟩
    rw [denseRank_eq]
    omega
  have hcard : (vals.toFinset.image (denseRank vals)).card = vals.toFinset.card :=
    Finset.card_image_of_injOn hinj
  exact Finset.eq_of_subset_of_card_le hsub (by rw [Nat.card_Icc, hcard]; omega)

lemma list_toFinset_map {α β : Type} [DecidableEq α] [DecidableEq β] (l : List α) (f : α → β) :
    (l.map f).toFinset = l.toFinset.image f := by
  apply Finset.ext
  intro b
  simp [List.mem_toFinset, List.mem_map, Finset.mem_image]

lemma denseRank_pairs_spec {α : Type} [DecidableEq α] [LinearOrder α] (vals : List α) :
    denseRankedPairs (vals.map fun v => (v, denseRank vals v)) := by
  refine ⟨?_, ?_, ?_⟩
  · simp only [List.map_map, Function.comp_def]
    rw [List.map_id', list_toFinset_map]
    exact denseRank_image vals
  · intro p hp q hq h1
    rcases List.mem_map.mp hp with ⟨v, hv, rfl⟩
    rcases List.mem_map.mp hq with ⟨w, hw, rfl⟩
    simp only at h1 ⊢
    rw [h1]
  · intro p hp q hq h1
    rcases List.mem_map.mp hp with ⟨v, hv, rfl⟩
    rcases List.mem_map.mp hq with ⟨w, hw, rfl⟩
    simp only at h1 ⊢
    exact denseRank_lt_of_lt vals v w hv h1

/-! ## Left-join lemmas -/

lemma filter_key_cases (sub : List (String × Nat)) (h : (sub.map Prod.fst).Nodup) (k : String) :
    sub.filter (fun q => decide (q.1 = k)) = []
    ∨ ∃ n, sub.filter (fun q => decide (q.1 = k)) = [(k, n)] := by
  induction sub with
  | nil => exact Or.inl rfl
  | cons a rest ih =>
    rw [List.map_cons, List.nodup_cons] at h
    by_cases hk : a.1 = k
    · right
      refine ⟨a.2, ?_⟩
      have hrest : rest.filter (fun q => decide (q.1 = k)) = [] := by
        apply List.filter_eq_nil_iff.mpr
        intro q hq
        simp only [decide_eq_true_eq]
        intro hqk
        have hmem : q.1 ∈ rest.map Prod.fst := List.mem_map.mpr ⟨q, hq, rfl⟩
        rw [hqk, ← hk] at hmem
        exact h.1 hmem
      rw [List.filter_cons, if_pos (by simp [hk]), hrest]
      have : a = (k, a.2) := by
        rcases a with ⟨a1, a2⟩
        simp at hk
        rw [hk]
      rw [← this]
    · rcases ih h.2 with hc | ⟨n, hc⟩
      · left
        rw [List.filter_cons, if_neg (by simp [hk]), hc]
      · right
        exact ⟨n, by rw [List.filter_cons, if_neg (by simp [hk]), hc]⟩

lemma leftJoinP_eq_map (main : List StatRow) (sub : List (String × Nat))
    (h : (sub.map Prod.fst).Nodup) :
    leftJoinP main sub = main.map fun s => (s, countLookup sub s.provider) := by
  induction main with
  | nil => rfl
  | cons s rest ih =>
    rw [List.map_cons, ← ih]
    show (match sub.filter (fun q => decide (q.1 = s.provider)) with
          | [] => [(s, none)]
          | ms => ms.map fun q => (s, some q.2)) ++ leftJoinP rest sub
        = (s, countLookup sub s.provider) :: leftJoinP rest sub
    rcases filter_key_cases sub h s.provider with hc | ⟨n, hc⟩
    · rw [hc]
      have hl : countLookup sub s.provider = none := by
        unfold countLookup
        rw [hc]
        rfl
      rw [hl]
      rfl
    · rw [hc]
      have hl : countLookup sub s.provider = some n := by
        unfold countLookup
        rw [hc]
        rfl
      rw [hl]
      rfl

lemma groupCount_keys (rows : List PRecord) (f : PRecord → Nat) :
    (groupCount rows f).map Prod.fst = providersOf rows := by
  unfold groupCount
  rw [List.map_map]
  exact List.map_id _

lemma groupCount_keys_nodup (rows : List PRecord) (f : PRecord → Nat) :
    ((groupCount rows f).map Prod.fst).Nodup := by
  rw [groupCount_keys]
  exact List.nodup_dedup _


/-! ## Stage-equation lemmas -/

lemma applyNewFile_eq (sd ed : Int) (rows : List PRecord) (main : List StatRow) :
    applyNewFile sd ed rows main =
      main.map fun s =>
        { s with
          newFileCount := some (nfCount sd ed rows s.provider)
          newFileRate := some (newRate s.remainUnreg (nfCount sd ed rows s.provider))
          newFileRateRank := some (denseRank
            (main.map fun m => newRate m.remainUnreg (nfCount sd ed rows m.provider))
            (newRate s.remainUnreg (nfCount sd ed rows s.provider))) } := by
  simp only [applyNewFile]
  rw [leftJoinP_eq_map _ _ (groupCount_keys_nodup _ _)]
  simp only [List.map_map, Function.comp_def]
  rfl

lemma applyNewSign_eq (sd ed : Int) (rows : List PRecord) (main : List StatRow) :
    applyNewSign sd ed rows main =
      main.map fun s =>
        { s with
          newSignCount := some (nsCount sd ed rows s.provider)
          newSignRate := some (newRate s.remainUnsign (nsCount sd ed rows s.provider))
          newSignRateRank := some (denseRank
            (main.map fun m => newRate m.remainUnsign (nsCount sd ed rows m.provider))
            (newRate s.remainUnsign (nsCount sd ed rows s.provider)))
          newSignCountRank := some (denseRank
            (main.map fun m => nsCount sd ed rows m.provider)
            (nsCount sd ed rows s.provider)) } := by
  simp only [applyNewSign]
  rw [leftJoinP_eq_map _ _ (groupCount_keys_nodup _ _)]
  simp only [List.map_map, Function.comp_def]
  rfl

lemma calculate_ok_parts (t : Table) (sd ed : Int) (out : Output)
    (h : calculate_doctor_performance t sd ed = Except.ok out) :
    requiredColumns.filter (fun c => decide (c ∉ t.cols)) = []
    ∧ ¬("签约日期" ∈ t.cols ∧ "团队名称" ∉ t.cols)
    ∧ out.grouped = groupedPipeline t.cols t.rows sd ed
    ∧ out.newFileRows = (if "建档日期" ∈ t.cols ∧ "就诊日期" ∈ t.cols
        then some ((windowFilter t.cols t.rows sd ed).filter (newFileMask sd ed)) else none)
    ∧ out.newSignRows = (if "签约日期" ∈ t.cols
        then some ((windowFilter t.cols t.rows sd ed).filter (newSignMask sd ed)) else none)
    ∧ out.healthHutRows = (if "签约日期" ∈ t.cols
        then some ((windowFilter t.cols t.rows sd ed).filter (hutSignMask sd ed)) else none) := by
  simp only [calculate_doctor_performance] at h
  by_cases hm : requiredColumns.filter (fun c => decide (c ∉ t.cols)) = []
  · rw [if_pos hm] at h
    by_cases hks : ("签约日期" ∈ t.cols ∧ "团队名称" ∉ t.cols)
    · rw [if_pos hks] at h
      exact absurd h (by simp)
    · rw [if_neg hks] at h
      have hout := (Except.ok.injEq _ _).mp h
      refine ⟨hm, hks, ?_, ?_, ?_, ?_⟩
      · rw [← hout]
        rfl
      · rw [← hout]
      · rw [← hout]
      · rw [← hout]
  · rw [if_neg hm] at h
    exact absurd h (by simp)


/-! ## Tracing and counting lemmas -/

lemma providersOf_spec (rows : List PRecord) (p : String) :
    p ∈ providersOf rows ↔ ∃ r ∈ rows, r.provider = p := by
  unfold providersOf
  rw [List.mem_dedup, List.mem_map]

lemma mem_windowFilter (cols : List String) (rows : List PRecord) (sd ed : Int) (r : PRecord)
    (h : r ∈ windowFilter cols rows sd ed) : r ∈ rows := by
  unfold windowFilter at h
  split at h
  · exact (List.mem_filter.mp h).1
  · exact h

lemma mem_groupRows (rows : List PRecord) (p : String) (r : PRecord) :
    r ∈ groupRows rows p ↔ r ∈ rows ∧ r.provider = p := by
  unfold groupRows
  rw [List.mem_filter]
  simp only [decide_eq_true_eq]

lemma groupRows_length_pos (rows : List PRecord) (p : String) (hp : p ∈ providersOf rows) :
    0 < (groupRows rows p).length := by
  rcases (providersOf_spec rows p).mp hp with ⟨r, hr, hrp⟩
  exact List.length_pos.mpr (List.ne_nil_of_mem ((mem_groupRows rows p r).mpr ⟨hr, hrp⟩))

lemma countLookup_eq_none (sub : List (String × Nat)) (k : String)
    (hk : k ∉ sub.map Prod.fst) : countLookup sub k = none := by
  unfold countLookup
  have hfil : sub.filter (fun q => decide (q.1 = k)) = [] := by
    apply List.filter_eq_nil_iff.mpr
    intro q hq
    simp only [decide_eq_true_eq]
    intro hqk
    exact hk (hqk ▸ List.mem_map.mpr ⟨q, hq, rfl⟩)
  rw [hfil]
  rfl

lemma nfCount_eq_zero (sd ed : Int) (rows : List PRecord) (p : String)
    (hp : groupRows (rows.filter (newFileMask sd ed)) p = []) :
    nfCount sd ed rows p = 0 := by
  unfold nfCount
  rw [countLookup_eq_none]
  · rfl
  · rw [groupCount_keys]
    intro hmem
    rcases (providersOf_spec _ p).mp hmem with ⟨r, hr, hrp⟩
    have : r ∈ groupRows (rows.filter (newFileMask sd ed)) p :=
      (mem_groupRows _ p r).mpr ⟨hr, hrp⟩
    rw [hp] at this
    exact absurd this (List.not_mem_nil r)

lemma nsCount_eq_zero (sd ed : Int) (rows : List PRecord) (p : String)
    (hp : groupRows (rows.filter (newSignMask sd ed)) p = []) :
    nsCount sd ed rows p = 0 := by
  unfold nsCount
  rw [countLookup_eq_none]
  · rfl
  · rw [groupCount_keys]
    intro hmem
    rcases (providersOf_spec _ p).mp hmem with ⟨r, hr, hrp⟩
    have : r ∈ groupRows (rows.filter (newSignMask sd ed)) p :=
      (mem_groupRows _ p r).mpr ⟨hr, hrp⟩
    rw [hp] at this
    exact absurd this (List.not_mem_nil r)


/-! ## Membership through the pipeline stages -/

lemma mem_withRanks (bs : List Base) (s : StatRow) (hs : s ∈ withRanks bs) :
    ∃ b ∈ bs,
      s.provider = b.provider ∧ s.visits = b.visits ∧ s.regLocalCount = b.regLocalCount ∧
      s.regExtCount = b.regExtCount ∧ s.remainUnreg = b.remainUnreg ∧
      s.signLocalCount = b.signLocalCount ∧ s.signExtCount = b.signExtCount ∧
      s.hutCount = b.hutCount ∧ s.remainUnsign = b.remainUnsign ∧
      s.regRate = b.regRate ∧ s.signRate = b.signRate ∧
      s.newFileCount = none ∧ s.newFileRate = none ∧ s.newFileRateRank = none ∧
      s.newSignCount = none ∧ s.newSignRate = none ∧ s.newSignRateRank = none ∧
      s.newSignCountRank = none := by
  simp only [withRanks] at hs
  rcases List.mem_map.mp hs with ⟨b, hb, rfl⟩
  exact ⟨b, hb, rfl, rfl, rfl, rfl, rfl, rfl, rfl, rfl, rfl, rfl, rfl, rfl, rfl, rfl,
    rfl, rfl, rfl, rfl⟩

lemma mem_applyNewFile (sd ed : Int) (rows : List PRecord) (main : List StatRow) (s : StatRow)
    (hs : s ∈ applyNewFile sd ed rows main) :
    ∃ m ∈ main,
      s.provider = m.provider ∧ s.visits = m.visits ∧ s.regLocalCount = m.regLocalCount ∧
      s.regExtCount = m.regExtCount ∧ s.remainUnreg = m.remainUnreg ∧
      s.signLocalCount = m.signLocalCount ∧ s.signExtCount = m.signExtCount ∧
      s.hutCount = m.hutCount ∧ s.remainUnsign = m.remainUnsign ∧
      s.regRate = m.regRate ∧ s.signRate = m.signRate ∧
      s.regRateRank = m.regRateRank ∧ s.signRateRank = m.signRateRank ∧
      s.newSignCount = m.newSignCount ∧ s.newSignRate = m.newSignRate ∧
      s.newSignRateRank = m.newSignRateRank ∧ s.newSignCountRank = m.newSignCountRank ∧
      s.newFileCount = some (nfCount sd ed rows m.provider) ∧
      s.newFileRate = some (newRate m.remainUnreg (nfCount sd ed rows m.provider)) := by
  rw [applyNewFile_eq] at hs
  rcases List.mem_map.mp hs with ⟨m, hm, rfl⟩
  exact ⟨m, hm, rfl, rfl, rfl, rfl, rfl, rfl, rfl, rfl, rfl, rfl, rfl, rfl, rfl, rfl,
    rfl, rfl, rfl, rfl, rfl⟩

lemma mem_applyNewSign (sd ed : Int) (rows : List PRecord) (main : List StatRow) (s : StatRow)
    (hs : s ∈ applyNewSign sd ed rows main) :
    ∃ m ∈ main,
      s.provider = m.provider ∧ s.visits = m.visits ∧ s.regLocalCount = m.regLocalCount ∧
      s.regExtCount = m.regExtCount ∧ s.remainUnreg = m.remainUnreg ∧
      s.signLocalCount = m.signLocalCount ∧ s.signExtCount = m.signExtCount ∧
      s.hutCount = m.hutCount ∧ s.remainUnsign = m.remainUnsign ∧
      s.regRate = m.regRate ∧ s.signRate = m.signRate ∧
      s.regRateRank = m.regRateRank ∧ s.signRateRank = m.signRateRank ∧
      s.newFileCount = m.newFileCount ∧ s.newFileRate = m.newFileRate ∧
      s.newFileRateRank = m.newFileRateRank ∧
      s.newSignCount = some (nsCount sd ed rows m.provider) ∧
      s.newSignRate = some (newRate m.remainUnsign (nsCount sd ed rows m.provider)) := by
  rw [applyNewSign_eq] at hs
  rcases List.mem_map.mp hs with ⟨m, hm, rfl⟩
  exact ⟨m, hm, rfl, rfl, rfl, rfl, rfl, rfl, rfl, rfl, rfl, rfl, rfl, rfl, rfl, rfl,
    rfl, rfl, rfl, rfl⟩

lemma mem_groupedPipeline (cols : List String) (rows0 : List PRecord) (sd ed : Int) (s : StatRow)
    (hs : s ∈ groupedPipeline cols rows0 sd ed) :
    s.provider ∈ providersOf (windowFilter cols rows0 sd ed) ∧
    (∀ b, b = baseFor (decide ("团队名称" ∈ cols)) (windowFilter cols rows0 sd ed) s.provider →
     s.visits = b.visits ∧ s.regLocalCount = b.regLocalCount ∧ s.regExtCount = b.regExtCount ∧
     s.remainUnreg = b.remainUnreg ∧ s.signLocalCount = b.signLocalCount ∧
     s.signExtCount = b.signExtCount ∧ s.hutCount = b.hutCount ∧
     s.remainUnsign = b.remainUnsign ∧ s.regRate = b.regRate ∧ s.signRate = b.signRate) := by
  simp only [groupedPipeline] at hs
  have hbase : ∀ u : StatRow, u ∈ withRanks (baseTable (decide ("团队名称" ∈ cols))
      (windowFilter cols rows0 sd ed)) →
      u.provider ∈ providersOf (windowFilter cols rows0 sd ed) ∧
      (∀ b, b = baseFor (decide ("团队名称" ∈ cols)) (windowFilter cols rows0 sd ed) u.provider →
       u.visits = b.visits ∧ u.regLocalCount = b.regLocalCount ∧ u.regExtCount = b.regExtCount ∧
       u.remainUnreg = b.remainUnreg ∧ u.signLocalCount = b.signLocalCount ∧
       u.signExtCount = b.signExtCount ∧ u.hutCount = b.hutCount ∧
       u.remainUnsign = b.remainUnsign ∧ u.regRate = b.regRate ∧ u.signRate = b.signRate) := by
    intro u hu
    rcases mem_withRanks _ u hu with ⟨b, hb, hfields⟩
    rcases List.mem_map.mp hb with ⟨p, hp, rfl⟩
    have hprov : u.provider = p := hfields.1
    rw [hprov]
    refine ⟨hp, ?_⟩
    intro b2 hb2
    rw [hb2]
    exact ⟨hfields.2.1, hfields.2.2.1, hfields.2.2.2.1, hfields.2.2.2.2.1,
      hfields.2.2.2.2.2.1, hfields.2.2.2.2.2.2.1, hfields.2.2.2.2.2.2.2.1,
      hfields.2.2.2.2.2.2.2.2.1, hfields.2.2.2.2.2.2.2.2.2.1, hfields.2.2.2.2.2.2.2.2.2.2.1⟩
  by_cases hNS : "签约日期" ∈ cols
  · rw [if_pos hNS] at hs
    by_cases hNF : "建档日期" ∈ cols ∧ "就诊日期" ∈ cols
    · rw [if_pos hNF] at hs
      rcases mem_applyNewSign _ _ _ _ _ hs with ⟨m, hm, hf⟩
      rcases mem_applyNewFile _ _ _ _ _ hm with ⟨u, hu, hg⟩
      have h1 := hbase u hu
      rw [hf.1, hg.1]
      refine ⟨h1.1, ?_⟩
      rw [hf.2.1, hg.2.1, hf.2.2.1, hg.2.2.1, hf.2.2.2.1, hg.2.2.2.1,
        hf.2.2.2.2.1, hg.2.2.2.2.1, hf.2.2.2.2.2.1, hg.2.2.2.2.2.1,
        hf.2.2.2.2.2.2.1, hg.2.2.2.2.2.2.1, hf.2.2.2.2.2.2.2.1, hg.2.2.2.2.2.2.2.1,
        hf.2.2.2.2.2.2.2.2.1, hg.2.2.2.2.2.2.2.2.1,
        hf.2.2.2.2.2.2.2.2.2.1, hg.2.2.2.2.2.2.2.2.2.1,
        hf.2.2.2.2.2.2.2.2.2.2.1, hg.2.2.2.2.2.2.2.2.2.2.1]
      exact h1.2
    · rw [if_neg hNF] at hs
      rcases mem_applyNewSign _ _ _ _ _ hs with ⟨m, hm, hf⟩
      have h1 := hbase m hm
      rw [hf.1]
      refine ⟨h1.1, ?_⟩
      rw [hf.2.1, hf.2.2.1, hf.2.2.2.1, hf.2.2.2.2.1, hf.2.2.2.2.2.1,
        hf.2.2.2.2.2.2.1, hf.2.2.2.2.2.2.2.1, hf.2.2.2.2.2.2.2.2.1,
        hf.2.2.2.2.2.2.2.2.2.1, hf.2.2.2.2.2.2.2.2.2.2.1]
      exact h1.2
  · rw [if_neg hNS] at hs
    by_cases hNF : "建档日期" ∈ cols ∧ "就诊日期" ∈ cols
    · rw [if_pos hNF] at hs
      rcases mem_applyNewFile _ _ _ _ _ hs with ⟨m, hm, hf⟩
      have h1 := hbase m hm
      rw [hf.1]
      refine ⟨h1.1, ?_⟩
      rw [hf.2.1, hf.2.2.1, hf.2.2.2.1, hf.2.2.2.2.1, hf.2.2.2.2.2.1,
        hf.2.2.2.2.2.2.1, hf.2.2.2.2.2.2.2.1, hf.2.2.2.2.2.2.2.2.1,
        hf.2.2.2.2.2.2.2.2.2.1, hf.2.2.2.2.2.2.2.2.2.2.1]
      exact h1.2
    · rw [if_neg hNF] at hs
      exact hbase s hs


/-! ## Column-level equations for the rank claims -/

lemma withRanks_provider (bs : List Base) :
    (withRanks bs).map (fun s => s.provider) = bs.map fun b => b.provider := by
  simp only [withRanks, List.map_map]
  rfl

lemma applyNewFile_provider (sd ed : Int) (rows : List PRecord) (main : List StatRow) :
    (applyNewFile sd ed rows main).map (fun s => s.provider) = main.map fun s => s.provider := by
  rw [applyNewFile_eq]
  simp only [List.map_map]
  rfl

lemma applyNewSign_provider (sd ed : Int) (rows : List PRecord) (main : List StatRow) :
    (applyNewSign sd ed rows main).map (fun s => s.provider) = main.map fun s => s.provider := by
  rw [applyNewSign_eq]
  simp only [List.map_map]
  rfl

lemma baseTable_provider (hasTeam : Bool) (rows : List PRecord) :
    (baseTable hasTeam rows).map (fun b => b.provider) = providersOf rows := by
  simp only [baseTable, List.map_map]
  exact List.map_id _

lemma groupedPipeline_providers (cols : List String) (rows0 : List PRecord) (sd ed : Int) :
    (groupedPipeline cols rows0 sd ed).map (fun s => s.provider)
      = providersOf (windowFilter cols rows0 sd ed) := by
  simp only [groupedPipeline]
  by_cases hNS : "签约日期" ∈ cols
  · rw [if_pos hNS, applyNewSign_provider]
    by_cases hNF : "建档日期" ∈ cols ∧ "就诊日期" ∈ cols
    · rw [if_pos hNF, applyNewFile_provider, withRanks_provider, baseTable_provider]
    · rw [if_neg hNF, withRanks_provider, baseTable_provider]
  · rw [if_neg hNS]
    by_cases hNF : "建档日期" ∈ cols ∧ "就诊日期" ∈ cols
    · rw [if_pos hNF, applyNewFile_provider, withRanks_provider, baseTable_provider]
    · rw [if_neg hNF, withRanks_provider, baseTable_provider]

lemma pairs_reg (cols : List String) (rows0 : List PRecord) (sd ed : Int) :
    (groupedPipeline cols rows0 sd ed).map (fun s => (s.regRate, s.regRateRank))
      = (let vals := (baseTable (decide ("团队名称" ∈ cols))
            (windowFilter cols rows0 sd ed)).map fun b => b.regRate
         vals.map fun v => (v, denseRank vals v)) := by
  simp only [groupedPipeline, withRanks]
  by_cases hNS : "签约日期" ∈ cols
  · rw [if_pos hNS, applyNewSign_eq]
    by_cases hNF : "建档日期" ∈ cols ∧ "就诊日期" ∈ cols
    · rw [if_pos hNF, applyNewFile_eq]
      simp only [List.map_map]
      rfl
    · rw [if_neg hNF]
      simp only [List.map_map]
      rfl
  · rw [if_neg hNS]
    by_cases hNF : "建档日期" ∈ cols ∧ "就诊日期" ∈ cols
    · rw [if_pos hNF, applyNewFile_eq]
      simp only [List.map_map]
      rfl
    · rw [if_neg hNF]
      simp only [List.map_map]
      rfl

lemma pairs_sign (cols : List String) (rows0 : List PRecord) (sd ed : Int) :
    (groupedPipeline cols rows0 sd ed).map (fun s => (s.signRate, s.signRateRank))
      = (let vals := (baseTable (decide ("团队名称" ∈ cols))
            (windowFilter cols rows0 sd ed)).map fun b => b.signRate
         vals.map fun v => (v, denseRank vals v)) := by
  simp only [groupedPipeline, withRanks]
  by_cases hNS : "签约日期" ∈ cols
  · rw [if_pos hNS, applyNewSign_eq]
    by_cases hNF : "建档日期" ∈ cols ∧ "就诊日期" ∈ cols
    · rw [if_pos hNF, applyNewFile_eq]
      simp only [List.map_map]
      rfl
    · rw [if_neg hNF]
      simp only [List.map_map]
      rfl
  · rw [if_neg hNS]
    by_cases hNF : "建档日期" ∈ cols ∧ "就诊日期" ∈ cols
    · rw [if_pos hNF, applyNewFile_eq]
      simp only [List.map_map]
      rfl
    · rw [if_neg hNF]
      simp only [List.map_map]
      rfl

lemma pairs_nf (cols : List String) (rows0 : List PRecord) (sd ed : Int)
    (hNF : "建档日期" ∈ cols ∧ "就诊日期" ∈ cols) :
    (groupedPipeline cols rows0 sd ed).map
        (fun s => (s.newFileRate.getD 0, s.newFileRateRank.getD 0))
      = (let rows := windowFilter cols rows0 sd ed
         let st0 := withRanks (baseTable (decide ("团队名称" ∈ cols)) rows)
         let rates := st0.map fun m => newRate m.remainUnreg (nfCount sd ed rows m.provider)
         rates.map fun v => (v, denseRank rates v)) := by
  simp only [groupedPipeline, if_pos hNF]
  by_cases hNS : "签约日期" ∈ cols
  · rw [if_pos hNS, applyNewSign_eq, applyNewFile_eq]
    simp only [List.map_map]
    rfl
  · rw [if_neg hNS, applyNewFile_eq]
    simp only [List.map_map]
    rfl

lemma pairs_ns_rate (cols : List String) (rows0 : List PRecord) (sd ed : Int)
    (hNS : "签约日期" ∈ cols) :
    (groupedPipeline cols rows0 sd ed).map
        (fun s => (s.newSignRate.getD 0, s.newSignRateRank.getD 0))
      = (let rows := windowFilter cols rows0 sd ed
         let st0 := withRanks (baseTable (decide ("团队名称" ∈ cols)) rows)
         let st1 := if "建档日期" ∈ cols ∧ "就诊日期" ∈ cols
            then applyNewFile sd ed rows st0 else st0
         let rates := st1.map fun m => newRate m.remainUnsign (nsCount sd ed rows m.provider)
         rates.map fun v => (v, denseRank rates v)) := by
  simp only [groupedPipeline, if_pos hNS]
  by_cases hNF : "建档日期" ∈ cols ∧ "就诊日期" ∈ cols
  · rw [if_pos hNF, applyNewSign_eq]
    simp only [List.map_map]
    rfl
  · rw [if_neg hNF, applyNewSign_eq]
    simp only [List.map_map]
    rfl

lemma pairs_ns_count (cols : List String) (rows0 : List PRecord) (sd ed : Int)
    (hNS : "签约日期" ∈ cols) :
    (groupedPipeline cols rows0 sd ed).map
        (fun s => (s.newSignCount.getD 0, s.newSignCountRank.getD 0))
      = (let rows := windowFilter cols rows0 sd ed
         let st0 := withRanks (baseTable (decide ("团队名称" ∈ cols)) rows)
         let st1 := if "建档日期" ∈ cols ∧ "就诊日期" ∈ cols
            then applyNewFile sd ed rows st0 else st0
         let counts := st1.map fun m => nsCount sd ed rows m.provider
         counts.map fun v => (v, denseRank counts v)) := by
  simp only [groupedPipeline, if_pos hNS]
  by_cases hNF : "建档日期" ∈ cols ∧ "就诊日期" ∈ cols
  · rw [if_pos hNF, applyNewSign_eq]
    simp only [List.map_map]
    rfl
  · rw [if_neg hNF, applyNewSign_eq]
    simp only [List.map_map]
    rfl


/-! ## Per-group sum lemmas -/

lemma unregFlag_pos (r : PRecord) (h : r.regLocal = 0) : unregFlag r = 1 := by
  unfold unregFlag
  rw [if_pos h]

lemma unregFlag_neg (r : PRecord) (h : ¬ r.regLocal = 0) : unregFlag r = 0 := by
  unfold unregFlag
  rw [if_neg h]

lemma sum_reg_plus_unreg (g : List PRecord) (hf : ∀ r ∈ g, r.regLocal ≤ 1) :
    (g.map fun r => r.regLocal).sum + (g.map unregFlag).sum = g.length := by
  induction g with
  | nil => rfl
  | cons a rest ih =>
    simp only [List.map_cons, List.sum_cons, List.length_cons]
    have ha := hf a (List.mem_cons_self a rest)
    have hrest := ih fun r hr => hf r (List.mem_cons_of_mem a hr)
    by_cases h0 : a.regLocal = 0
    · rw [unregFlag_pos a h0, h0]
      omega
    · rw [unregFlag_neg a h0]
      omega

lemma unreg_sum_eq_filter_length (g : List PRecord) :
    (g.map unregFlag).sum = (g.filter fun r => decide (r.regLocal = 0)).length := by
  induction g with
  | nil => rfl
  | cons a rest ih =>
    simp only [List.map_cons, List.sum_cons, List.filter_cons]
    by_cases h0 : a.regLocal = 0
    · rw [unregFlag_pos a h0, if_pos (decide_eq_true h0), List.length_cons, ih]
      omega
    · rw [unregFlag_neg a h0, if_neg (by simp [h0]), ih]
      omega

lemma effSign_hut (r : PRecord) (h : r.teamName = some healthHutLabel) :
    effSign true r = 0 := by
  unfold effSign hutFlag
  rw [if_pos rfl, if_pos h]
  rfl

lemma effSign_nonhut (r : PRecord) (h : ¬ r.teamName = some healthHutLabel) :
    effSign true r = r.signLocal := by
  unfold effSign hutFlag
  rw [if_pos rfl, if_neg h]
  rfl

lemma effSign_sum_split (g : List PRecord) :
    (g.map (effSign true)).sum
      = ((g.filter fun r => !(decide (r.teamName = some healthHutLabel))).map
          fun r => r.signLocal).sum := by
  induction g with
  | nil => rfl
  | cons a rest ih =>
    simp only [List.map_cons, List.sum_cons, List.filter_cons]
    by_cases hh : a.teamName = some healthHutLabel
    · rw [effSign_hut a hh, if_neg (by simp [hh]), ih]
      omega
    · rw [effSign_nonhut a hh, if_pos (by simp [hh]), List.map_cons, List.sum_cons, ih]

lemma hutFlag_true_pos (r : PRecord) (h : r.teamName = some healthHutLabel) :
    hutFlag true r = 1 := by
  unfold hutFlag
  rw [if_pos rfl, if_pos h]

lemma hutFlag_true_neg (r : PRecord) (h : ¬ r.teamName = some healthHutLabel) :
    hutFlag true r = 0 := by
  unfold hutFlag
  rw [if_pos rfl, if_neg h]

lemma hut_sum_eq_filter_length (g : List PRecord) :
    (g.map (hutFlag true)).sum
      = (g.filter fun r => decide (r.teamName = some healthHutLabel)).length := by
  induction g with
  | nil => rfl
  | cons a rest ih =>
    simp only [List.map_cons, List.sum_cons, List.filter_cons]
    by_cases hh : a.teamName = some healthHutLabel
    · rw [hutFlag_true_pos a hh, if_pos (decide_eq_true hh), List.length_cons, ih]
      omega
    · rw [hutFlag_true_neg a hh, if_neg (by simp [hh]), ih]
      omega

lemma unsignFlag_pos (hasTeam : Bool) (r : PRecord) (h : effSign hasTeam r = 0) :
    unsignFlag hasTeam r = 1 := by
  unfold unsignFlag
  rw [if_pos h]

lemma unsignFlag_neg (hasTeam : Bool) (r : PRecord) (h : ¬ effSign hasTeam r = 0) :
    unsignFlag hasTeam r = 0 := by
  unfold unsignFlag
  rw [if_neg h]

lemma unsign_sum_split (g : List PRecord) :
    (g.map (unsignFlag true)).sum
      = (g.filter fun r =>
          decide (r.teamName = some healthHutLabel) || decide (r.signLocal = 0)).length := by
  induction g with
  | nil => rfl
  | cons a rest ih =>
    simp only [List.map_cons, List.sum_cons, List.filter_cons]
    by_cases hh : a.teamName = some healthHutLabel
    · rw [unsignFlag_pos true a (effSign_hut a hh), if_pos (by simp [hh]), List.length_cons, ih]
      omega
    · by_cases h0 : a.signLocal = 0
      · rw [unsignFlag_pos true a (by rw [effSign_nonhut a hh]; exact h0),
          if_pos (by simp [h0]), List.length_cons, ih]
        omega
      · rw [unsignFlag_neg true a (by rw [effSign_nonhut a hh]; exact h0),
          if_neg (by simp [hh, h0]), ih]
        omega

lemma hut_sum_false (g : List PRecord) : (g.map (hutFlag false)).sum = 0 := by
  induction g with
  | nil => rfl
  | cons a rest ih =>
    simp only [List.map_cons, List.sum_cons, ih]
    rfl

lemma effSign_false (r : PRecord) : effSign false r = r.signLocal := rfl

lemma unsign_sum_false (g : List PRecord) :
    (g.map (unsignFlag false)).sum = (g.filter fun r => decide (r.signLocal = 0)).length := by
  induction g with
  | nil => rfl
  | cons a rest ih =>
    simp only [List.map_cons, List.sum_cons, List.filter_cons]
    by_cases h0 : a.signLocal = 0
    · rw [unsignFlag_pos false a (by rw [effSign_false]; exact h0),
        if_pos (decide_eq_true h0), List.length_cons, ih]
      omega
    · rw [unsignFlag_neg false a (by rw [effSign_false]; exact h0),
        if_neg (by simp [h0]), ih]
      omega


/-! ## Normalizer lemmas -/

lemma preprocess_cons_none (a : RawRecord) (rest : List RawRecord)
    (hp : parseDate a.visitDate = none) :
    preprocess_data (a :: rest) = preprocess_data rest := by
  simp only [preprocess_data, List.filterMap_cons, hp]
  rfl

lemma preprocess_cons_some (a : RawRecord) (rest : List RawRecord) (d : Int)
    (hp : parseDate a.visitDate = some d) :
    preprocess_data (a :: rest) = convRecord a d :: preprocess_data rest := by
  simp only [preprocess_data, List.filterMap_cons, hp]
  rfl

lemma preprocess_length (rs : List RawRecord) :
    (preprocess_data rs).length
      = (rs.filter fun r => (parseDate r.visitDate).isSome).length := by
  induction rs with
  | nil => rfl
  | cons a rest ih =>
    rw [List.filter_cons]
    cases hp : parseDate a.visitDate with
    | none =>
      rw [preprocess_cons_none a rest hp, if_neg (by simp [hp])]
      exact ih
    | some d =>
      rw [preprocess_cons_some a rest d hp, if_pos (by simp [hp]), List.length_cons,
        List.length_cons, ih]

lemma preprocess_mem_of_parse (rs : List RawRecord) (r : RawRecord) (hr : r ∈ rs) (d : Int)
    (hd : parseDate r.visitDate = some d) :
    convRecord r d ∈ preprocess_data rs :=
  List.mem_filterMap.mpr ⟨r, hr, by rw [hd]; rfl⟩

lemma preprocess_mem_inv (rs : List RawRecord) (q : PRecord) (hq : q ∈ preprocess_data rs) :
    ∃ r ∈ rs, ∃ d, parseDate r.visitDate = some d ∧ q = convRecord r d := by
  rcases List.mem_filterMap.mp hq with ⟨r, hr, hf⟩
  cases hp : parseDate r.visitDate with
  | none =>
    rw [hp] at hf
    exact absurd hf (by simp)
  | some d =>
    rw [hp] at hf
    refine ⟨r, hr, d, hp, ?_⟩
    simpa using hf.symm

lemma preprocess_visit_count (rs : List RawRecord) (p : String) :
    ((preprocess_data rs).filter fun q => decide (q.provider = p)).length
      = (rs.filter fun r => decide (r.provider = p) && (parseDate r.visitDate).isSome).length := by
  induction rs with
  | nil => rfl
  | cons a rest ih =>
    cases hp : parseDate a.visitDate with
    | none =>
      rw [preprocess_cons_none a rest hp, List.filter_cons,
        if_neg (by simp [hp]), ih]
    | some d =>
      rw [preprocess_cons_some a rest d hp, List.filter_cons, List.filter_cons]
      by_cases hprov : a.provider = p
      · rw [if_pos (by simp [convRecord, hprov]), if_pos (by simp [hprov, hp]),
          List.length_cons, List.length_cons, ih]
      · rw [if_neg (by simp [convRecord, hprov]), if_neg (by simp [hprov]), ih]


/-! ## New-registration / new-signing columns of the pipeline rows -/

lemma groupedPipeline_newFile (cols : List String) (rows0 : List PRecord) (sd ed : Int)
    (hNF : "建档日期" ∈ cols ∧ "就诊日期" ∈ cols) (s : StatRow)
    (hs : s ∈ groupedPipeline cols rows0 sd ed) :
    s.newFileCount = some (nfCount sd ed (windowFilter cols rows0 sd ed) s.provider) ∧
    s.newFileRate = some (newRate s.remainUnreg
      (nfCount sd ed (windowFilter cols rows0 sd ed) s.provider)) := by
  simp only [groupedPipeline, if_pos hNF] at hs
  by_cases hNS : "签约日期" ∈ cols
  · rw [if_pos hNS] at hs
    rcases mem_applyNewSign _ _ _ _ _ hs with
      ⟨m, hm, f1, f2, f3, f4, f5, f6, f7, f8, f9, f10, f11, f12, f13, f14, f15, f16, f17, f18⟩
    rcases mem_applyNewFile _ _ _ _ _ hm with
      ⟨u, hu, g1, g2, g3, g4, g5, g6, g7, g8, g9, g10, g11, g12, g13, g14, g15, g16, g17,
        g18, g19⟩
    constructor
    · rw [f14, g18, f1, g1]
    · rw [f15, g19, f1, g1, f5, g5]
  · rw [if_neg hNS] at hs
    rcases mem_applyNewFile _ _ _ _ _ hs with
      ⟨u, hu, g1, g2, g3, g4, g5, g6, g7, g8, g9, g10, g11, g12, g13, g14, g15, g16, g17,
        g18, g19⟩
    constructor
    · rw [g18, g1]
    · rw [g19, g1, g5]

lemma groupedPipeline_newSign (cols : List String) (rows0 : List PRecord) (sd ed : Int)
    (hNS : "签约日期" ∈ cols) (s : StatRow)
    (hs : s ∈ groupedPipeline cols rows0 sd ed) :
    s.newSignCount = some (nsCount sd ed (windowFilter cols rows0 sd ed) s.provider) ∧
    s.newSignRate = some (newRate s.remainUnsign
      (nsCount sd ed (windowFilter cols rows0 sd ed) s.provider)) := by
  simp only [groupedPipeline, if_pos hNS] at hs
  rcases mem_applyNewSign _ _ _ _ _ hs with
    ⟨m, hm, f1, f2, f3, f4, f5, f6, f7, f8, f9, f10, f11, f12, f13, f14, f15, f16, f17, f18⟩
  constructor
  · rw [f17, f1]
  · rw [f18, f1, f9]

lemma groupedPipeline_rank_some (cols : List String) (rows0 : List PRecord) (sd ed : Int)
    (s : StatRow) (hs : s ∈ groupedPipeline cols rows0 sd ed) :
    ("建档日期" ∈ cols ∧ "就诊日期" ∈ cols → (s.newFileRateRank).isSome)
    ∧ ("签约日期" ∈ cols → (s.newSignRateRank).isSome ∧ (s.newSignCountRank).isSome) := by
  simp only [groupedPipeline] at hs
  constructor
  · intro hNF
    rw [if_pos hNF] at hs
    by_cases hNS : "签约日期" ∈ cols
    · rw [if_pos hNS] at hs
      rw [applyNewSign_eq] at hs
      rcases List.mem_map.mp hs with ⟨m, hm, rfl⟩
      rw [applyNewFile_eq] at hm
      rcases List.mem_map.mp hm with ⟨u, hu, rfl⟩
      rfl
    · rw [if_neg hNS] at hs
      rw [applyNewFile_eq] at hs
      rcases List.mem_map.mp hs with ⟨u, hu, rfl⟩
      rfl
  · intro hNS
    rw [if_pos hNS] at hs
    rw [applyNewSign_eq] at hs
    rcases List.mem_map.mp hs with ⟨m, hm, rfl⟩
    exact ⟨rfl, rfl⟩


/-! ## Claim theorems -/

/-- C1: for every provider row of the main statistics table (when the
registration-date column is present), the new-registration rate is
`newCount / (remainingUnregistered + newCount)` whenever
`remainingUnregistered > 0` and `0` whenever `remainingUnregistered = 0` —
even with a positive new count — and the analogous formula holds for the
new-signing rate against `remainingUnsigned`. -/
theorem claim1_new_rate_formula (t : Table) (sd ed : Int) (out : Output)
    (h : calculate_doctor_performance t sd ed = Except.ok out) :
    ("建档日期" ∈ t.cols ∧ "就诊日期" ∈ t.cols →
      ∀ row ∈ out.grouped, ∃ c : Nat, row.newFileCount = some c ∧
        row.newFileRate = some (if 0 < row.remainUnreg
          then (c : ℚ) / ((row.remainUnreg : ℚ) + (c : ℚ)) else 0))
    ∧ ("签约日期" ∈ t.cols →
      ∀ row ∈ out.grouped, ∃ c : Nat, row.newSignCount = some c ∧
        row.newSignRate = some (if 0 < row.remainUnsign
          then (c : ℚ) / ((row.remainUnsign : ℚ) + (c : ℚ)) else 0)) := by
  rcases calculate_ok_parts t sd ed out h with ⟨hm, hks, hg, hnf, hns, hhh⟩
  constructor
  · intro hNF row hrow
    rw [hg] at hrow
    rcases groupedPipeline_newFile t.cols t.rows sd ed hNF row hrow with ⟨hc, hr⟩
    refine ⟨nfCount sd ed (windowFilter t.cols t.rows sd ed) row.provider, hc, ?_⟩
    rw [hr]
    rfl
  · intro hNS row hrow
    rw [hg] at hrow
    rcases groupedPipeline_newSign t.cols t.rows sd ed hNS row hrow with ⟨hc, hr⟩
    refine ⟨nsCount sd ed (windowFilter t.cols t.rows sd ed) row.provider, hc, ?_⟩
    rw [hr]
    rfl

/-- Witness for C1 at `sampleTable`: all hypotheses hold and the conclusion is
obtained from the theorem.  In `sampleOut`, provider B has
`remainUnsign = 0` with `newSignCount = 1`, exercising the guarded branch. -/
theorem claim1_witness :
    calculate_doctor_performance sampleTable 0 1 = Except.ok sampleOut
    ∧ (("建档日期" ∈ sampleTable.cols ∧ "就诊日期" ∈ sampleTable.cols →
      ∀ row ∈ sampleOut.grouped, ∃ c : Nat, row.newFileCount = some c ∧
        row.newFileRate = some (if 0 < row.remainUnreg
          then (c : ℚ) / ((row.remainUnreg : ℚ) + (c : ℚ)) else 0))
    ∧ ("签约日期" ∈ sampleTable.cols →
      ∀ row ∈ sampleOut.grouped, ∃ c : Nat, row.newSignCount = some c ∧
        row.newSignRate = some (if 0 < row.remainUnsign
          then (c : ℚ) / ((row.remainUnsign : ℚ) + (c : ℚ)) else 0))) :=
  ⟨rfl, claim1_new_rate_formula sampleTable 0 1 sampleOut rfl⟩

/-- C5 (code bug): an input with all six required columns plus `签约日期` but
without `团队名称` makes `calculate_doctor_performance` fail (line 159 of
`app.py` reads `df['团队名称']` unguarded, raising `KeyError`) instead of
completing with absorbed conditions. -/
theorem claim5_keyerror_on_missing_team :
    calculate_doctor_performance keyErrTable 0 1
      = Except.error (CalcError.keyError "团队名称") := rfl

/-- C6: every provider row of the statistics table has a positive visit count
(the groupby key set is exactly the providers occurring in the filtered rows),
so the base-rate denominators are never zero; the rates equal the counts over
the visit count. -/
theorem claim6_visits_positive (t : Table) (sd ed : Int) (out : Output)
    (h : calculate_doctor_performance t sd ed = Except.ok out) :
    ∀ row ∈ out.grouped,
      0 < row.visits ∧ ((row.visits : ℚ) ≠ 0) ∧
      row.regRate = (row.regLocalCount : ℚ) / (row.visits : ℚ) ∧
      row.signRate = (row.signLocalCount : ℚ) / (row.visits : ℚ) := by
  rcases calculate_ok_parts t sd ed out h with ⟨hm, hks, hg, hnf, hns, hhh⟩
  intro row hrow
  rw [hg] at hrow
  rcases mem_groupedPipeline t.cols t.rows sd ed row hrow with ⟨hp, hb⟩
  rcases hb _ rfl with ⟨h1, h2, h3, h4, h5, h6, h7, h8, h9, h10⟩
  have hpos : 0 < row.visits := by
    rw [h1]
    exact groupRows_length_pos _ _ hp
  refine ⟨hpos, ?_, ?_, ?_⟩
  · exact Nat.cast_ne_zero.mpr (Nat.pos_iff_ne_zero.mp hpos)
  · rw [h9, h2, h1]
    rfl
  · rw [h10, h5, h1]
    rfl


/-- Witness for C6 at `sampleTable`. -/
theorem claim6_witness :
    calculate_doctor_performance sampleTable 0 1 = Except.ok sampleOut
    ∧ (∀ row ∈ sampleOut.grouped,
      0 < row.visits ∧ ((row.visits : ℚ) ≠ 0) ∧
      row.regRate = (row.regLocalCount : ℚ) / (row.visits : ℚ) ∧
      row.signRate = (row.signLocalCount : ℚ) / (row.visits : ℚ)) :=
  ⟨rfl, claim6_visits_positive sampleTable 0 1 sampleOut rfl⟩

/-- C7: if any required column is absent, the whole call aborts with a schema
error whose report names exactly the missing required columns (all of them),
and no statistics or subset tables are returned (the `Except.error` branch
carries none). -/
theorem claim7_schema_abort (t : Table) (sd ed : Int)
    (hmiss : ∃ c ∈ requiredColumns, c ∉ t.cols) :
    ∃ ms, calculate_doctor_performance t sd ed = Except.error (CalcError.missingColumns ms)
      ∧ (∀ c, c ∈ ms ↔ (c ∈ requiredColumns ∧ c ∉ t.cols)) := by
  rcases hmiss with ⟨c0, hc0, hnc0⟩
  have hne : requiredColumns.filter (fun c => decide (c ∉ t.cols)) ≠ [] := by
    intro hnil
    have : c0 ∈ requiredColumns.filter (fun c => decide (c ∉ t.cols)) :=
      List.mem_filter.mpr ⟨hc0, decide_eq_true hnc0⟩
    rw [hnil] at this
    exact absurd this (List.not_mem_nil c0)
  refine ⟨requiredColumns.filter (fun c => decide (c ∉ t.cols)), ?_, ?_⟩
  · simp only [calculate_doctor_performance]
    rw [if_neg hne]
  · intro c
    rw [List.mem_filter]
    simp only [decide_eq_true_eq]

/-- Witness for C7 at `badTable`, which lacks five of the six required
columns. -/
theorem claim7_witness :
    (∃ c ∈ requiredColumns, c ∉ badTable.cols)
    ∧ ∃ ms, calculate_doctor_performance badTable 0 1
        = Except.error (CalcError.missingColumns ms)
      ∧ (∀ c, c ∈ ms ↔ (c ∈ requiredColumns ∧ c ∉ badTable.cols)) :=
  ⟨⟨"身份证号", by decide, by decide⟩,
    claim7_schema_abort badTable 0 1 ⟨"身份证号", by decide, by decide⟩⟩


/-- C4: per provider, the local-registration count plus the
remaining-unregistered count equals the visit count (for 0/1 flag inputs, as
the normalizer produces), because a row counts as remaining-unregistered
exactly when its local-registration flag is 0. -/
theorem claim4_reg_plus_remaining (t : Table) (sd ed : Int) (out : Output)
    (h : calculate_doctor_performance t sd ed = Except.ok out)
    (hflag : ∀ r ∈ t.rows, r.regLocal ≤ 1) :
    ∀ row ∈ out.grouped,
      row.regLocalCount + row.remainUnreg = row.visits ∧
      row.remainUnreg = ((groupRows (windowFilter t.cols t.rows sd ed) row.provider).filter
        fun r => decide (r.regLocal = 0)).length := by
  rcases calculate_ok_parts t sd ed out h with ⟨hm, hks, hg, hnf, hns, hhh⟩
  intro row hrow
  rw [hg] at hrow
  rcases mem_groupedPipeline t.cols t.rows sd ed row hrow with ⟨hp, hb⟩
  rcases hb _ rfl with ⟨h1, h2, h3, h4, h5, h6, h7, h8, h9, h10⟩
  have hsub : ∀ r ∈ groupRows (windowFilter t.cols t.rows sd ed) row.provider, r.regLocal ≤ 1 :=
    fun r hr => hflag r (mem_windowFilter t.cols t.rows sd ed r ((mem_groupRows _ _ r).mp hr).1)
  constructor
  · rw [h2, h1, h4]
    exact sum_reg_plus_unreg _ hsub
  · rw [h4]
    exact unreg_sum_eq_filter_length _

/-- Witness for C4 at `sampleTable`. -/
theorem claim4_witness :
    calculate_doctor_performance sampleTable 0 1 = Except.ok sampleOut
    ∧ (∀ r ∈ sampleTable.rows, r.regLocal ≤ 1)
    ∧ (∀ row ∈ sampleOut.grouped,
      row.regLocalCount + row.remainUnreg = row.visits ∧
      row.remainUnreg = ((groupRows (windowFilter sampleTable.cols sampleTable.rows 0 1)
        row.provider).filter fun r => decide (r.regLocal = 0)).length) :=
  ⟨rfl, by decide, claim4_reg_plus_remaining sampleTable 0 1 sampleOut rfl (by decide)⟩

/-- C2: a health-hut row contributes 0 to the effective local-signing flag
(hence to the signing count, the signing-rate numerator, and the complement
that feeds `remainingUnsigned`), contributes 1 to the health-hut indicator, and
is excluded from the NewSignings subset; rows of other teams contribute their
raw local-signing flag.  The provider aggregates are exactly the corresponding
filtered sums/counts. -/
theorem claim2_health_hut_carveout (t : Table) (sd ed : Int) (out : Output)
    (h : calculate_doctor_performance t sd ed = Except.ok out)
    (hTeam : "团队名称" ∈ t.cols) :
    (∀ r : PRecord,
      (r.teamName = some healthHutLabel →
        effSign true r = 0 ∧ hutFlag true r = 1 ∧ unsignFlag true r = 1)
      ∧ (¬ r.teamName = some healthHutLabel →
        effSign true r = r.signLocal ∧ hutFlag true r = 0))
    ∧ (∀ row ∈ out.grouped,
      row.signLocalCount = (((groupRows (windowFilter t.cols t.rows sd ed) row.provider).filter
          fun r => !(decide (r.teamName = some healthHutLabel))).map fun r => r.signLocal).sum
      ∧ row.hutCount = ((groupRows (windowFilter t.cols t.rows sd ed) row.provider).filter
          fun r => decide (r.teamName = some healthHutLabel)).length
      ∧ row.remainUnsign = ((groupRows (windowFilter t.cols t.rows sd ed) row.provider).filter
          fun r => decide (r.teamName = some healthHutLabel) || decide (r.signLocal = 0)).length)
    ∧ (∀ l, out.newSignRows = some l → ∀ r ∈ l, ¬ r.teamName = some healthHutLabel) := by
  rcases calculate_ok_parts t sd ed out h with ⟨hm, hks, hg, hnf, hns, hhh⟩
  have hteamT : decide ("团队名称" ∈ t.cols) = true := decide_eq_true hTeam
  refine ⟨?_, ?_, ?_⟩
  · intro r
    constructor
    · intro hh
      exact ⟨effSign_hut r hh, hutFlag_true_pos r hh,
        unsignFlag_pos true r (effSign_hut r hh)⟩
    · intro hh
      exact ⟨effSign_nonhut r hh, hutFlag_true_neg r hh⟩
  · intro row hrow
    rw [hg] at hrow
    rcases mem_groupedPipeline t.cols t.rows sd ed row hrow with ⟨hp, hb⟩
    rcases hb _ rfl with ⟨h1, h2, h3, h4, h5, h6, h7, h8, h9, h10⟩
    rw [hteamT] at h5 h7 h8
    refine ⟨?_, ?_, ?_⟩
    · rw [h5]
      exact effSign_sum_split _
    · rw [h7]
      exact hut_sum_eq_filter_length _
    · rw [h8]
      exact unsign_sum_split _
  · intro l hl r hr
    rw [hns] at hl
    by_cases hNS : "签约日期" ∈ t.cols
    · rw [if_pos hNS] at hl
      have hl2 : l = (windowFilter t.cols t.rows sd ed).filter (newSignMask sd ed) :=
        (Option.some.injEq _ _).mp hl.symm
      rw [hl2] at hr
      have hmask := (List.mem_filter.mp hr).2
      unfold newSignMask at hmask
      rcases Bool.and_eq_true_iff.mp hmask with ⟨hbase, hnothut⟩
      intro hhut
      rw [hhut] at hnothut
      simp at hnothut
    · rw [if_neg hNS] at hl
      exact absurd hl (by simp)

/-- Witness for C2 at `sampleTable` (whose first row is a health-hut signing
row). -/
theorem claim2_witness :
    calculate_doctor_performance sampleTable 0 1 = Except.ok sampleOut
    ∧ "团队名称" ∈ sampleTable.cols
    ∧ ((∀ r : PRecord,
      (r.teamName = some healthHutLabel →
        effSign true r = 0 ∧ hutFlag true r = 1 ∧ unsignFlag true r = 1)
      ∧ (¬ r.teamName = some healthHutLabel →
        effSign true r = r.signLocal ∧ hutFlag true r = 0))
    ∧ (∀ row ∈ sampleOut.grouped,
      row.signLocalCount = (((groupRows (windowFilter sampleTable.cols sampleTable.rows 0 1)
          row.provider).filter
          fun r => !(decide (r.teamName = some healthHutLabel))).map fun r => r.signLocal).sum
      ∧ row.hutCount = ((groupRows (windowFilter sampleTable.cols sampleTable.rows 0 1)
          row.provider).filter
          fun r => decide (r.teamName = some healthHutLabel)).length
      ∧ row.remainUnsign = ((groupRows (windowFilter sampleTable.cols sampleTable.rows 0 1)
          row.provider).filter
          fun r => decide (r.teamName = some healthHutLabel) || decide (r.signLocal = 0)).length)
    ∧ (∀ l, sampleOut.newSignRows = some l →
        ∀ r ∈ l, ¬ r.teamName = some healthHutLabel)) :=
  ⟨rfl, by decide, claim2_health_hut_carveout sampleTable 0 1 sampleOut rfl (by decide)⟩


/-- C10: when the `团队名称` column is entirely absent, every row is treated as
non-health-hut — each provider's health-hut count is 0, the signing count is
the plain sum of the raw local-signing flags, the remaining-unsigned count is
the count of rows with flag 0, and the signing rate uses that plain sum. -/
theorem claim10_absent_team_column (t : Table) (sd ed : Int) (out : Output)
    (h : calculate_doctor_performance t sd ed = Except.ok out)
    (hNoTeam : "团队名称" ∉ t.cols) :
    ∀ row ∈ out.grouped,
      row.hutCount = 0
      ∧ row.signLocalCount = ((groupRows (windowFilter t.cols t.rows sd ed) row.provider).map
          fun r => r.signLocal).sum
      ∧ row.remainUnsign = ((groupRows (windowFilter t.cols t.rows sd ed) row.provider).filter
          fun r => decide (r.signLocal = 0)).length
      ∧ row.signRate = (row.signLocalCount : ℚ) / (row.visits : ℚ) := by
  rcases calculate_ok_parts t sd ed out h with ⟨hm, hks, hg, hnf, hns, hhh⟩
  have hteamF : decide ("团队名称" ∈ t.cols) = false := decide_eq_false hNoTeam
  intro row hrow
  rw [hg] at hrow
  rcases mem_groupedPipeline t.cols t.rows sd ed row hrow with ⟨hp, hb⟩
  rcases hb _ rfl with ⟨h1, h2, h3, h4, h5, h6, h7, h8, h9, h10⟩
  rw [hteamF] at h5 h7 h8 h10
  refine ⟨?_, ?_, ?_, ?_⟩
  · rw [h7]
    exact hut_sum_false _
  · rw [h5]
    rfl
  · rw [h8]
    exact unsign_sum_false _
  · rw [h10, h5, h1]
    rfl

/-- Witness for C10 at `noTeamTable`. -/
theorem claim10_witness :
    calculate_doctor_performance noTeamTable 0 1 = Except.ok noTeamOut
    ∧ "团队名称" ∉ noTeamTable.cols
    ∧ (∀ row ∈ noTeamOut.grouped,
      row.hutCount = 0
      ∧ row.signLocalCount = ((groupRows (windowFilter noTeamTable.cols noTeamTable.rows 0 1)
          row.provider).map fun r => r.signLocal).sum
      ∧ row.remainUnsign = ((groupRows (windowFilter noTeamTable.cols noTeamTable.rows 0 1)
          row.provider).filter fun r => decide (r.signLocal = 0)).length
      ∧ row.signRate = (row.signLocalCount : ℚ) / (row.visits : ℚ)) :=
  ⟨rfl, by decide, claim10_absent_team_column noTeamTable 0 1 noTeamOut rfl (by decide)⟩


/-- C8: each subset merge is a left join on the provider key — the merged
table's provider column is exactly the main grouped table's provider list (no
row dropped, none introduced), a provider with no qualifying subset rows gets
the integer count 0 rather than a missing value, and the merged count is
always an integer (`some` of a natural number). -/
theorem claim8_left_join (t : Table) (sd ed : Int) (out : Output)
    (h : calculate_doctor_performance t sd ed = Except.ok out) :
    (out.grouped.map (fun s => s.provider) = providersOf (windowFilter t.cols t.rows sd ed))
    ∧ ("建档日期" ∈ t.cols ∧ "就诊日期" ∈ t.cols →
        ∀ row ∈ out.grouped,
          (∃ n : Nat, row.newFileCount = some n)
          ∧ (groupRows ((windowFilter t.cols t.rows sd ed).filter (newFileMask sd ed))
              row.provider = [] → row.newFileCount = some 0))
    ∧ ("签约日期" ∈ t.cols →
        ∀ row ∈ out.grouped,
          (∃ n : Nat, row.newSignCount = some n)
          ∧ (groupRows ((windowFilter t.cols t.rows sd ed).filter (newSignMask sd ed))
              row.provider = [] → row.newSignCount = some 0)) := by
  rcases calculate_ok_parts t sd ed out h with ⟨hm, hks, hg, hnf, hns, hhh⟩
  refine ⟨?_, ?_, ?_⟩
  · rw [hg]
    exact groupedPipeline_providers t.cols t.rows sd ed
  · intro hNF row hrow
    rw [hg] at hrow
    rcases groupedPipeline_newFile t.cols t.rows sd ed hNF row hrow with ⟨hc, hr⟩
    refine ⟨⟨_, hc⟩, ?_⟩
    intro hz
    rw [hc, nfCount_eq_zero sd ed _ row.provider hz]
  · intro hNS row hrow
    rw [hg] at hrow
    rcases groupedPipeline_newSign t.cols t.rows sd ed hNS row hrow with ⟨hc, hr⟩
    refine ⟨⟨_, hc⟩, ?_⟩
    intro hz
    rw [hc, nsCount_eq_zero sd ed _ row.provider hz]

/-- Witness for C8 at `sampleTable`. -/
theorem claim8_witness :
    calculate_doctor_performance sampleTable 0 1 = Except.ok sampleOut
    ∧ ((sampleOut.grouped.map (fun s => s.provider)
        = providersOf (windowFilter sampleTable.cols sampleTable.rows 0 1))
    ∧ ("建档日期" ∈ sampleTable.cols ∧ "就诊日期" ∈ sampleTable.cols →
        ∀ row ∈ sampleOut.grouped,
          (∃ n : Nat, row.newFileCount = some n)
          ∧ (groupRows ((windowFilter sampleTable.cols sampleTable.rows 0 1).filter
              (newFileMask 0 1)) row.provider = [] → row.newFileCount = some 0))
    ∧ ("签约日期" ∈ sampleTable.cols →
        ∀ row ∈ sampleOut.grouped,
          (∃ n : Nat, row.newSignCount = some n)
          ∧ (groupRows ((windowFilter sampleTable.cols sampleTable.rows 0 1).filter
              (newSignMask 0 1)) row.provider = [] → row.newSignCount = some 0))) :=
  ⟨rfl, claim8_left_join sampleTable 0 1 sampleOut rfl⟩

/-- C9: the normalizer drops a row exactly when its visit date is missing or
unparseable; a row with an invalid or missing registration or signing date is
kept, with that date recorded as absent, and still counts as a visit in the
per-provider visit count. -/
theorem claim9_normalizer_drop_policy (rs : List RawRecord) :
    ((preprocess_data rs).length = (rs.filter fun r => (parseDate r.visitDate).isSome).length)
    ∧ (∀ r ∈ rs, ∀ d, parseDate r.visitDate = some d → convRecord r d ∈ preprocess_data rs)
    ∧ (∀ q ∈ preprocess_data rs, ∃ r ∈ rs, ∃ d, parseDate r.visitDate = some d
        ∧ q = convRecord r d ∧ q.regDate = parseDate r.regDate ∧ q.signDate = parseDate r.signDate)
    ∧ (∀ p : String, ((preprocess_data rs).filter fun q => decide (q.provider = p)).length
        = (rs.filter fun r => decide (r.provider = p) && (parseDate r.visitDate).isSome).length) := by
  refine ⟨preprocess_length rs, ?_, ?_, preprocess_visit_count rs⟩
  · intro r hr d hd
    exact preprocess_mem_of_parse rs r hr d hd
  · intro q hq
    rcases preprocess_mem_inv rs q hq with ⟨r, hr, d, hp, hconv⟩
    refine ⟨r, hr, d, hp, hconv, ?_, ?_⟩
    · rw [hconv]
      rfl
    · rw [hconv]
      rfl

/-- Witness for C9 at `sampleRaw` (one kept row with an unparseable
registration date, one missing and one unparseable visit date). -/
theorem claim9_witness :
    ((preprocess_data sampleRaw).length
      = (sampleRaw.filter fun r => (parseDate r.visitDate).isSome).length)
    ∧ (∀ r ∈ sampleRaw, ∀ d, parseDate r.visitDate = some d →
        convRecord r d ∈ preprocess_data sampleRaw)
    ∧ (∀ q ∈ preprocess_data sampleRaw, ∃ r ∈ sampleRaw, ∃ d,
        parseDate r.visitDate = some d
        ∧ q = convRecord r d ∧ q.regDate = parseDate r.regDate ∧ q.signDate = parseDate r.signDate)
    ∧ (∀ p : String, ((preprocess_data sampleRaw).filter fun q => decide (q.provider = p)).length
        = (sampleRaw.filter fun r =>
            decide (r.provider = p) && (parseDate r.visitDate).isSome).length) :=
  claim9_normalizer_drop_policy sampleRaw


/-- C3: every rank column present in the table (`建档率排名`, `签约率排名`, and
the optional `新建档率排名`, `新签约率排名`, `新签约人数排名`) is a dense
descending ranking: equal metric values share a rank, a strictly larger value
gets a strictly smaller rank (1 = best), and the set of assigned ranks is
exactly `{1, ..., k}` with `k` the number of distinct metric values. -/
theorem claim3_dense_ranking (t : Table) (sd ed : Int) (out : Output)
    (h : calculate_doctor_performance t sd ed = Except.ok out) :
    denseRankedPairs (out.grouped.map fun s => (s.regRate, s.regRateRank))
    ∧ denseRankedPairs (out.grouped.map fun s => (s.signRate, s.signRateRank))
    ∧ ("建档日期" ∈ t.cols ∧ "就诊日期" ∈ t.cols →
        (∀ s ∈ out.grouped, (s.newFileRateRank).isSome)
        ∧ denseRankedPairs (out.grouped.map fun s =>
            (s.newFileRate.getD 0, s.newFileRateRank.getD 0)))
    ∧ ("签约日期" ∈ t.cols →
        (∀ s ∈ out.grouped, (s.newSignRateRank).isSome ∧ (s.newSignCountRank).isSome)
        ∧ denseRankedPairs (out.grouped.map fun s =>
            (s.newSignRate.getD 0, s.newSignRateRank.getD 0))
        ∧ denseRankedPairs (out.grouped.map fun s =>
            (s.newSignCount.getD 0, s.newSignCountRank.getD 0))) := by
  rcases calculate_ok_parts t sd ed out h with ⟨hm, hks, hg, hnf, hns, hhh⟩
  refine ⟨?_, ?_, ?_, ?_⟩
  · rw [hg, pairs_reg]
    exact denseRank_pairs_spec _
  · rw [hg, pairs_sign]
    exact denseRank_pairs_spec _
  · intro hNF
    constructor
    · intro s hs
      rw [hg] at hs
      exact (groupedPipeline_rank_some t.cols t.rows sd ed s hs).1 hNF
    · rw [hg, pairs_nf t.cols t.rows sd ed hNF]
      exact denseRank_pairs_spec _
  · intro hNS
    refine ⟨?_, ?_, ?_⟩
    · intro s hs
      rw [hg] at hs
      exact (groupedPipeline_rank_some t.cols t.rows sd ed s hs).2 hNS
    · rw [hg, pairs_ns_rate t.cols t.rows sd ed hNS]
      exact denseRank_pairs_spec _
    · rw [hg, pairs_ns_count t.cols t.rows sd ed hNS]
      exact denseRank_pairs_spec _

/-- Witness for C3 at `sampleTable`. -/
theorem claim3_witness :
    calculate_doctor_performance sampleTable 0 1 = Except.ok sampleOut
    ∧ (denseRankedPairs (sampleOut.grouped.map fun s => (s.regRate, s.regRateRank))
    ∧ denseRankedPairs (sampleOut.grouped.map fun s => (s.signRate, s.signRateRank))
    ∧ ("建档日期" ∈ sampleTable.cols ∧ "就诊日期" ∈ sampleTable.cols →
        (∀ s ∈ sampleOut.grouped, (s.newFileRateRank).isSome)
        ∧ denseRankedPairs (sampleOut.grouped.map fun s =>
            (s.newFileRate.getD 0, s.newFileRateRank.getD 0)))
    ∧ ("签约日期" ∈ sampleTable.cols →
        (∀ s ∈ sampleOut.grouped, (s.newSignRateRank).isSome ∧ (s.newSignCountRank).isSome)
        ∧ denseRankedPairs (sampleOut.grouped.map fun s =>
            (s.newSignRate.getD 0, s.newSignRateRank.getD 0))
        ∧ denseRankedPairs (sampleOut.grouped.map fun s =>
            (s.newSignCount.getD 0, s.newSignCountRank.getD 0)))) :=
  ⟨rfl, claim3_dense_ranking sampleTable 0 1 sampleOut rfl⟩

end DoctorStats
